import Mathlib

/-!
Verification development for the address-gazetteer build engine of
pacport/japanese-addresses (src/bin/build.js).

Strings are shallowly embedded as lists of characters (JavaScript strings
are sequences of UTF-16 code units; every character appearing in this
development lies in the BMP, so a list of code points is a faithful model).
Coordinates are embedded as rationals. Fallible JavaScript code (property
access on `undefined` raises a TypeError) is embedded with `Except`.

Helper functions of the repository that live outside src/bin/build.js
(create-record-key, get-postal-kana-or-rome-items, import-patches) are
modelled from the spec; each such definition says so in its doc comment.
External npm libraries (@geolonia/japanese-numeral, @turf/center,
@turf/nearest-point) are likewise modelled from their documented behaviour
as the spec describes it.
-/

/-- A JavaScript string, embedded as its list of code points. -/
abbrev Str := List Char

/-- Code points of a Lean string literal, used to write embedded constants. -/
def str (s : String) : Str := s.data

/-- The characters removed by JavaScript String.prototype.trim:
ECMAScript WhiteSpace (TAB VT FF SP NBSP ZWNBSP and the Zs category)
together with LineTerminator (LF CR LS PS). -/
def jsWhitespaceChars : Str :=
  [Char.ofNat 9, Char.ofNat 10, Char.ofNat 11, Char.ofNat 12, Char.ofNat 13,
   Char.ofNat 32, Char.ofNat 160, Char.ofNat 0x1680,
   Char.ofNat 0x2000, Char.ofNat 0x2001, Char.ofNat 0x2002, Char.ofNat 0x2003,
   Char.ofNat 0x2004, Char.ofNat 0x2005, Char.ofNat 0x2006, Char.ofNat 0x2007,
   Char.ofNat 0x2008, Char.ofNat 0x2009, Char.ofNat 0x200A,
   Char.ofNat 0x2028, Char.ofNat 0x2029, Char.ofNat 0x202F, Char.ofNat 0x205F,
   Char.ofNat 0x3000, Char.ofNat 0xFEFF]

/-- Whether `trim` removes the character. -/
def jsWhitespace (c : Char) : Bool := jsWhitespaceChars.contains c

/-- The ASCII whitespace characters (TAB LF VT FF CR SP). -/
def asciiWhitespaceChars : Str :=
  [Char.ofNat 9, Char.ofNat 10, Char.ofNat 11, Char.ofNat 12, Char.ofNat 13,
   Char.ofNat 32]

def asciiWhitespace (c : Char) : Bool := asciiWhitespaceChars.contains c

/-- The full-width (ideographic) space U+3000, written `'　'` in build.js. -/
def fullWidthSpace : Char := Char.ofNat 0x3000

/-- JavaScript `s.trim()`: strip `jsWhitespace` characters from both ends. -/
def jsTrim (s : Str) : Str :=
  ((s.dropWhile jsWhitespace).reverse.dropWhile jsWhitespace).reverse

/-- Trimming only ASCII whitespace from both ends (the operation the spec
names; used to state C9 as written). -/
def asciiTrim (s : Str) : Str :=
  ((s.dropWhile asciiWhitespace).reverse.dropWhile asciiWhitespace).reverse

/-- JavaScript `s.replace(pat, rep)` with a string pattern: replace the
first occurrence of `pat` only. -/
def replaceFirst (s : Str) (pat rep : Str) : Str :=
  match s with
  | [] => if pat = [] then rep else []
  | c :: rest =>
    if pat.isPrefixOf (c :: rest) then rep ++ (c :: rest).drop pat.length
    else c :: replaceFirst rest pat rep

/-- JavaScript `s.replaceAll(x, "")` for a one-character pattern: remove
every occurrence of the character, scanning left to right. -/
def jsRemoveAllChar (x : Char) : Str → Str
  | [] => []
  | c :: rest => if c = x then jsRemoveAllChar x rest else c :: jsRemoveAllChar x rest

/-- build.js `removeUnnecessarySpace`: `text.replace('　', '').trim()` —
the first ideographic space is deleted, then JavaScript trim runs. -/
def removeUnnecessarySpace (s : Str) : Str :=
  jsTrim (replaceFirst s [fullWidthSpace] [])

/-- The function the claim describes word for word: delete every full-width
space, then trim ASCII whitespace from both ends, altering nothing else. -/
def removeUnnecessarySpaceClaimed (s : Str) : Str :=
  asciiTrim (s.filter (fun c => c ≠ fullWidthSpace))

/-- Numeric value of a kanji digit (0 for any other character). -/
def kanjiDigit (c : Char) : Nat :=
  if c = '一' then 1 else if c = '二' then 2 else if c = '三' then 3
  else if c = '四' then 4 else if c = '五' then 5 else if c = '六' then 6
  else if c = '七' then 7 else if c = '八' then 8 else if c = '九' then 9 else 0

/-- Member of the regex class `[一二三四五六七八九]` (the units position). -/
def isUnitsKanji (c : Char) : Bool := kanjiDigit c ≥ 1

/-- Member of the regex class `[二三四五六七八九]` (the tens position). -/
def isTensKanji (c : Char) : Bool := kanjiDigit c ≥ 2

/-- One-character capture group of `GET_CHOME_NUMBER_REGEX`, examined from
the right end of the text: value and length when it matches. -/
def chomeGroup1 (c1 : Char) : Option (Nat × Nat) :=
  if c1 = '十' then some (10, 1)
  else if isUnitsKanji c1 then some (kanjiDigit c1, 1) else none

/-- Two-character capture group (`c1` is the last character, `c2` the one
before it): `a十`, `十b` or `ab` in source order. -/
def chomeGroup2 (c1 c2 : Char) : Option (Nat × Nat) :=
  if isTensKanji c2 ∧ c1 = '十' then some (10 * kanjiDigit c2, 2)
  else if c2 = '十' ∧ isUnitsKanji c1 then some (10 + kanjiDigit c1, 2)
  else if isTensKanji c2 ∧ isUnitsKanji c1 then
    some (10 * kanjiDigit c2 + kanjiDigit c1, 2)
  else none

/-- Three-character capture group `a十b` read from the right. -/
def chomeGroup3 (c1 c2 c3 : Char) : Option (Nat × Nat) :=
  if isUnitsKanji c1 ∧ c2 = '十' ∧ isTensKanji c3 then
    some (10 * kanjiDigit c3 + kanjiDigit c1, 3)
  else none

/-- The capture group the regex engine matches, given the reversed text in
front of the `丁`: the longest of the at-most-three-character suffixes that
lies in the group language, paired with its length.  Leftmost matching of
the end-anchored pattern picks exactly this suffix. -/
def chomeGroupRev : Str → Option (Nat × Nat)
  | [] => none
  | [c1] => chomeGroup1 c1
  | [c1, c2] =>
    match chomeGroup2 c1 c2 with
    | some r => some r
    | none => chomeGroup1 c1
  | c1 :: c2 :: c3 :: _ =>
    match chomeGroup3 c1 c2 c3 with
    | some r => some r
    | none =>
      match chomeGroup2 c1 c2 with
      | some r => some r
      | none => chomeGroup1 c1

/-- The literal tail `丁` or `丁目` of the pattern, removed from the
reversed text: remaining reversed text and tail length. -/
def chomeTail : Str → Option (Str × Nat)
  | [] => none
  | [c] => if c = '丁' then some ([], 1) else none
  | c :: d :: t =>
    if c = '目' ∧ d = '丁' then some (t, 2)
    else if c = '丁' then some (d :: t, 1) else none

/-- build.js `getChomeNumber` (with the default empty suffix argument):
match `([二三四五六七八九]?十?[一二三四五六七八九]?)丁目?$`, convert the
captured kanji numeral with the kanji-to-number converter, return the
decimal digits; the empty string when the regex fails or captures nothing. -/
def getChomeNumber (s : Str) : Str :=
  match chomeTail s.reverse with
  | none => []
  | some (t, _) =>
    match chomeGroupRev t with
    | none => []
    | some (v, _) => (Nat.repr v).data

/-- The whole regex match removed from the end of the text when the capture
group is non-empty; the text itself otherwise.  Modelled from the spec:
§4.3's attempt (b) removes "a detected chome-number suffix from the source
town name via §4.1's extractChomeNumber reverse-stripping". -/
def stripChomeSuffix (s : Str) : Str :=
  match chomeTail s.reverse with
  | none => s
  | some (t, n) =>
    match chomeGroupRev t with
    | none => s
    | some (_, g) => s.take (s.length - (g + n))

/-- build.js `removeStringEnclosedInParentheses`:
`text.replace(/\(.+\)$/, '')`.  When the text ends with `)`, everything
from the first `(` that still has at least one character before that final
`)` is removed; otherwise the text is unchanged. -/
def parenScan : Str → Str
  | [] => []
  | c :: rest => if c = '(' ∧ rest.length ≥ 2 then [] else c :: parenScan rest

def removeStringEnclosedInParentheses (s : Str) : Str :=
  if s.getLast? = some ')' then parenScan s else s

/-- The two-code-unit (voiced/semi-voiced) entries of build.js `han2zenMap`,
in source order: (half-width kana, voicing mark) to full-width kana. -/
def han2zenDigraphs : List ((Char × Char) × Char) :=
  [(('ｶ', 'ﾞ'), 'ガ'), (('ｷ', 'ﾞ'), 'ギ'), (('ｸ', 'ﾞ'), 'グ'),
   (('ｹ', 'ﾞ'), 'ゲ'), (('ｺ', 'ﾞ'), 'ゴ'), (('ｻ', 'ﾞ'), 'ザ'),
   (('ｼ', 'ﾞ'), 'ジ'), (('ｽ', 'ﾞ'), 'ズ'), (('ｾ', 'ﾞ'), 'ゼ'),
   (('ｿ', 'ﾞ'), 'ゾ'), (('ﾀ', 'ﾞ'), 'ダ'), (('ﾁ', 'ﾞ'), 'ヂ'),
   (('ﾂ', 'ﾞ'), 'ヅ'), (('ﾃ', 'ﾞ'), 'デ'), (('ﾄ', 'ﾞ'), 'ド'),
   (('ﾊ', 'ﾞ'), 'バ'), (('ﾋ', 'ﾞ'), 'ビ'), (('ﾌ', 'ﾞ'), 'ブ'),
   (('ﾍ', 'ﾞ'), 'ベ'), (('ﾎ', 'ﾞ'), 'ボ'), (('ﾊ', 'ﾟ'), 'パ'),
   (('ﾋ', 'ﾟ'), 'ピ'), (('ﾌ', 'ﾟ'), 'プ'), (('ﾍ', 'ﾟ'), 'ペ'),
   (('ﾎ', 'ﾟ'), 'ポ'), (('ｳ', 'ﾞ'), 'ヴ'), (('ﾜ', 'ﾞ'), 'ヷ'),
   (('ｦ', 'ﾞ'), 'ヺ')]

/-- The one-code-unit entries of build.js `han2zenMap`, in source order. -/
def han2zenSingles : List (Char × Char) :=
  [('ｱ', 'ア'), ('ｲ', 'イ'), ('ｳ', 'ウ'), ('ｴ', 'エ'), ('ｵ', 'オ'),
   ('ｶ', 'カ'), ('ｷ', 'キ'), ('ｸ', 'ク'), ('ｹ', 'ケ'), ('ｺ', 'コ'),
   ('ｻ', 'サ'), ('ｼ', 'シ'), ('ｽ', 'ス'), ('ｾ', 'セ'), ('ｿ', 'ソ'),
   ('ﾀ', 'タ'), ('ﾁ', 'チ'), ('ﾂ', 'ツ'), ('ﾃ', 'テ'), ('ﾄ', 'ト'),
   ('ﾅ', 'ナ'), ('ﾆ', 'ニ'), ('ﾇ', 'ヌ'), ('ﾈ', 'ネ'), ('ﾉ', 'ノ'),
   ('ﾊ', 'ハ'), ('ﾋ', 'ヒ'), ('ﾌ', 'フ'), ('ﾍ', 'ヘ'), ('ﾎ', 'ホ'),
   ('ﾏ', 'マ'), ('ﾐ', 'ミ'), ('ﾑ', 'ム'), ('ﾒ', 'メ'), ('ﾓ', 'モ'),
   ('ﾔ', 'ヤ'), ('ﾕ', 'ユ'), ('ﾖ', 'ヨ'),
   ('ﾗ', 'ラ'), ('ﾘ', 'リ'), ('ﾙ', 'ル'), ('ﾚ', 'レ'), ('ﾛ', 'ロ'),
   ('ﾜ', 'ワ'), ('ｦ', 'ヲ'), ('ﾝ', 'ン'),
   ('ｧ', 'ァ'), ('ｨ', 'ィ'), ('ｩ', 'ゥ'), ('ｪ', 'ェ'), ('ｫ', 'ォ'),
   ('ｯ', 'ッ'), ('ｬ', 'ャ'), ('ｭ', 'ュ'), ('ｮ', 'ョ'),
   ('｡', '。'), ('､', '、'), ('ｰ', 'ー'), ('｢', '「'), ('｣', '」'),
   ('･', '・')]

/-- Full-width replacement of a two-code-unit key, when one applies. -/
def han2zenDigraph (c d : Char) : Option Char :=
  (han2zenDigraphs.find? (fun p => p.1.1 = c ∧ p.1.2 = d)).map Prod.snd

/-- Full-width replacement of a one-code-unit key, when one applies. -/
def han2zenSingle (c : Char) : Option Char :=
  (han2zenSingles.find? (fun p => p.1 = c)).map Prod.snd

/-- build.js `han2zen`: global regex replacement over the alternation of
all map keys, two-code-unit keys listed first, scanning left to right. -/
def han2zen : Str → Str
  | [] => []
  | [c] =>
    match han2zenSingle c with
    | some z => [z]
    | none => [c]
  | c :: d :: rest =>
    match han2zenDigraph c d with
    | some z => z :: han2zen rest
    | none =>
      match han2zenSingle c with
      | some z => z :: han2zen (d :: rest)
      | none => c :: han2zen (d :: rest)

/-- build.js `isjRenames`: (prefecture, original city name, renamed city
name) for the two known municipal renames. -/
def isjRenames : List (Str × Str × Str) :=
  [(str "兵庫県", (str "篠山市", str "丹波篠山市")),
   (str "福岡県", (str "筑紫郡那珂川町", str "那珂川市"))]

/-- The rename substitution applied whenever a city name is read from a
position-reference source row (`isjRenames.find` in build.js). -/
def applyRename (prefName cityName : Str) : Str :=
  match isjRenames.find? (fun r => r.1 = prefName ∧ r.2.1 = cityName) with
  | some r => r.2.2
  | none => cityName

/-- Canonical composite key for deduplication and joins. -/
structure RecordKey where
  pref : Str
  city : Str
  town : Str
  koaza : Str
deriving DecidableEq, Repr

/-- Modelled from the spec: src/lib/create-record-key.js is not under src/.
§4.2: look up (prefecture, city) in the rename table (exact match only) and
substitute the renamed city; a sub-district of literal value "NULL" is
treated as the empty string; the result is the ordered tuple. -/
def createRecordKey (prefName cityName townName koazaName : Str) : RecordKey :=
  { pref := prefName
    city := applyRename prefName cityName
    town := townName
    koaza := if koazaName = str "NULL" then [] else koazaName }

/-- A row of the kana postal dictionary (columns build.js names when
parsing postalcode_kogaki.csv; only the columns the engine reads). -/
structure KanaEntry where
  lgCode : Str
  postal : Str
  prefKana : Str
  cityKana : Str
  townKana : Str
  prefName : Str
  cityName : Str
  townName : Str
deriving DecidableEq, Repr

/-- A row of the romaji postal dictionary (postalcode_roman.csv). -/
structure RomeEntry where
  postal : Str
  prefName : Str
  cityName : Str
  townName : Str
  prefRome : Str
  cityRome : Str
  townRome : Str
deriving DecidableEq, Repr

/-- Modelled from the spec: src/lib/get-postal-kana-or-rome-items.js is not
under src/.  §4.3: `entries` is pre-filtered to the prefecture; the city
name is compared exactly; for the town, descending-precision attempts with
the first success winning: (a) exact town match, (b) match after removing a
detected chome-number suffix from the source town name, (c) any entry whose
town field is empty.  Returns none when no attempt matches.  `cityOf` and
`townOf` read the native-script city/town columns of either dictionary. -/
def getPostalKanaOrRomeItems {α : Type} (cityOf townOf : α → Str)
    (cityName townName : Str) (entries : List α) : Option α :=
  match entries.find? (fun e => cityOf e = cityName ∧ townOf e = townName) with
  | some e => some e
  | none =>
    match entries.find?
        (fun e => cityOf e = cityName ∧ townOf e = stripChomeSuffix townName) with
    | some e => some e
    | none => entries.find? (fun e => cityOf e = cityName ∧ townOf e = [])

/-- The kana-dictionary lookup as build.js calls it. -/
def lookupKanaItem (cityName townName : Str) (entries : List KanaEntry) :
    Option KanaEntry :=
  getPostalKanaOrRomeItems KanaEntry.cityName KanaEntry.townName
    cityName townName entries

/-- The romaji-dictionary lookup as build.js calls it. -/
def lookupRomeItem (cityName townName : Str) (entries : List RomeEntry) :
    Option RomeEntry :=
  getPostalKanaOrRomeItems RomeEntry.cityName RomeEntry.townName
    cityName townName entries

/-- A district-level (Oaza) position-reference source row: the columns of
nlftp_mlit_130b that build.js reads.  Latitude/longitude carry the value
`Number(...)` produces, embedded as rationals. -/
structure OazaRow where
  prefName : Str
  cityName : Str
  cityCode : Str
  townRaw : Str
  lat : ℚ
  lng : ℚ
deriving DecidableEq, Repr

/-- A block-level (Gaiku) position-reference source row (nlftp_mlit_180a). -/
structure GaikuRow where
  prefName : Str
  cityName : Str
  townRaw : Str
  koazaRaw : Str
  residentialFlag : Str
  gaikuNum : Str
  lat : ℚ
  lng : ℚ
deriving DecidableEq, Repr

/-- One output address record: the fifteen slots of the array build.js
constructs, in order. -/
structure AddressRecord where
  prefCode : Str
  postal : Str
  prefName : Str
  prefKana : Str
  prefRome : Str
  cityCode : Str
  cityName : Str
  cityKana : Str
  cityRome : Str
  townName : Str
  townKana : Str
  townRome : Str
  koazaName : Str
  lat : ℚ
  lng : ℚ
deriving DecidableEq, Repr

/-- One raw block-level output row (gaikuRecords in build.js). -/
structure GaikuPoint where
  prefName : Str
  cityName : Str
  townRaw : Str
  gaikuNum : Str
  lng : ℚ
  lat : ℚ
deriving DecidableEq, Repr

/-- The accumulating per-prefecture record map, in insertion order
(a JavaScript object keyed by record keys). -/
abbrev RecMap := List (RecordKey × AddressRecord)

/-- The global coordinate-sample store `coords` of build.js. -/
abbrev CoordsMap := List (RecordKey × List (ℚ × ℚ))

/-- Property read on a JavaScript object used as a map: the value bound to
the key, if any. -/
def alget {α : Type} : List (RecordKey × α) → RecordKey → Option α
  | [], _ => none
  | e :: rest, k => if e.1 = k then some e.2 else alget rest k

/-- build.js `addToCoords`: start a fresh one-sample list for an unseen
key, push onto the existing list otherwise. -/
def addToCoords : CoordsMap → RecordKey → ℚ × ℚ → CoordsMap
  | [], k, c => [(k, [c])]
  | e :: rest, k, c =>
    if e.1 = k then (e.1, e.2 ++ [c]) :: rest else e :: addToCoords rest k c

/-- Squared Euclidean distance in lon/lat space. -/
def dist2 (a b : ℚ × ℚ) : ℚ := (a.1 - b.1) * (a.1 - b.1) + (a.2 - b.2) * (a.2 - b.2)

/-- Geometric center of the axis-aligned bounding box of the samples.
Modelled from the spec: @turf/center is an external library; §4.4 specifies
"compute the axis-aligned bounding box of all samples for the key, take its
geometric center". -/
def bboxCenter : List (ℚ × ℚ) → ℚ × ℚ
  | [] => (0, 0)
  | p :: rest =>
    ((rest.foldl (fun m q => min m q.1) p.1 + rest.foldl (fun m q => max m q.1) p.1) / 2,
     (rest.foldl (fun m q => min m q.2) p.2 + rest.foldl (fun m q => max m q.2) p.2) / 2)

/-- The sample nearest to the target, first sample winning ties.  Modelled
from the spec: @turf/nearest-point is an external library; §4.4 allows
Euclidean distance in lon/lat space and §8 fixes the first-sample
tie-break. -/
def nearestStep (target best q : ℚ × ℚ) : ℚ × ℚ :=
  if dist2 target q < dist2 target best then q else best

def nearestPoint (target : ℚ × ℚ) : List (ℚ × ℚ) → Option (ℚ × ℚ)
  | [] => none
  | p :: rest => some (rest.foldl (nearestStep target) p)

/-- build.js `getCenter`: the stored sample of the key nearest to the
bounding-box center of all its samples.  When the key has no samples the
JavaScript code throws (`arr` is undefined); that is `none` here. -/
def getCenter (coordsMap : CoordsMap) (k : RecordKey) : Option (ℚ × ℚ) :=
  match alget coordsMap k with
  | none => none
  | some arr => nearestPoint (bboxCenter arr) arr

/-- The space-separated chome-number suffix build.js appends to the kana
and romaji town readings: a single space and the extracted number when the
extraction is non-empty, nothing otherwise. -/
def chomeReadingSuffix (s : Str) : Str :=
  if getChomeNumber s = [] then [] else ' ' :: getChomeNumber s

/-- The record key the Oaza pass computes for a source row. -/
def oazaKeyOf (row : OazaRow) : RecordKey :=
  createRecordKey row.prefName (applyRename row.prefName row.cityName)
    (removeUnnecessarySpace row.townRaw) []

/-- Construction of the record array in `getOazaAddressItems` (build.js
lines 371-399).  `postalCodeKanaItem['郵便番号']` is read without a guard,
so a missing kana entry raises a TypeError: that is the `error` case.  All
other kana/romaji reads are guarded by ternaries that substitute the empty
string. -/
def buildOazaRecord (prefCode : Str) (kanaItems : List KanaEntry)
    (romeItems : List RomeEntry) (row : OazaRow) : Except Unit AddressRecord :=
  let cityName := applyRename row.prefName row.cityName
  let townName := removeUnnecessarySpace row.townRaw
  let kanaItem := lookupKanaItem cityName townName kanaItems
  let romeItem := lookupRomeItem cityName townName romeItems
  match kanaItem with
  | none => .error ()
  | some k =>
    .ok
      { prefCode := prefCode
        postal := k.postal
        prefName := row.prefName
        prefKana := han2zen k.prefKana
        prefRome := (romeItem.map RomeEntry.prefRome).getD []
        cityCode := row.cityCode
        cityName := cityName
        cityKana := han2zen k.cityKana
        cityRome := (romeItem.map RomeEntry.cityRome).getD []
        townName := townName
        townKana := han2zen (removeStringEnclosedInParentheses k.townKana) ++
          chomeReadingSuffix row.townRaw
        townRome := (romeItem.map (fun r =>
          removeStringEnclosedInParentheses r.townRome ++
            chomeReadingSuffix row.townRaw)).getD []
        koazaName := []
        lat := row.lat
        lng := row.lng }

/-- The record key the Gaiku pass computes for a source row (the koaza
"NULL" sentinel is mapped to the empty string before key construction). -/
def gaikuKeyOf (row : GaikuRow) : RecordKey :=
  createRecordKey row.prefName (applyRename row.prefName row.cityName)
    (removeUnnecessarySpace row.townRaw)
    (if row.koazaRaw = str "NULL" then [] else row.koazaRaw)

/-- Construction of the record array in `getGaikuAddressItems` (build.js
lines 498-534).  `getCenter` runs first and throws when the key has no
samples; then `postalCodeKanaItem['郵便番号']` and
`postalCodeKanaItem['全国地方公共団体コード']` are read without guards, so
a missing kana entry raises a TypeError. -/
def buildGaikuRecord (prefCode : Str) (kanaItems : List KanaEntry)
    (romeItems : List RomeEntry) (coordsMap : CoordsMap) (row : GaikuRow) :
    Except Unit AddressRecord :=
  let cityName := applyRename row.prefName row.cityName
  let townName := removeUnnecessarySpace row.townRaw
  let koazaName := if row.koazaRaw = str "NULL" then [] else row.koazaRaw
  let kanaItem := lookupKanaItem cityName townName kanaItems
  let romeItem := lookupRomeItem cityName townName romeItems
  match getCenter coordsMap (gaikuKeyOf row) with
  | none => .error ()
  | some center =>
    match kanaItem with
    | none => .error ()
    | some k =>
      .ok
        { prefCode := prefCode
          postal := k.postal
          prefName := row.prefName
          prefKana := han2zen k.prefKana
          prefRome := (romeItem.map RomeEntry.prefRome).getD []
          cityCode := k.lgCode
          cityName := cityName
          cityKana := han2zen k.cityKana
          cityRome := (romeItem.map RomeEntry.cityRome).getD []
          townName := townName
          townKana := han2zen (removeStringEnclosedInParentheses k.townKana) ++
            chomeReadingSuffix townName
          townRome := (romeItem.map (fun r =>
            removeStringEnclosedInParentheses r.townRome ++
              chomeReadingSuffix townName)).getD []
          koazaName := koazaName
          lat := center.2
          lng := center.1 }

/-- The shared accumulation loop of both aggregators: walk the source rows
in order; a row whose key is already bound is skipped silently; otherwise
the row's record is constructed (construction may throw) and inserted. -/
def dedupPass {ρ : Type} (keyOf : ρ → RecordKey)
    (build : ρ → Except Unit AddressRecord) :
    List ρ → RecMap → Except Unit RecMap
  | [], m => .ok m
  | row :: rest, m =>
    if (alget m (keyOf row)).isSome then dedupPass keyOf build rest m
    else
      match build row with
      | .error e => .error e
      | .ok rec => dedupPass keyOf build rest (m ++ [(keyOf row, rec)])

/-- build.js `getOazaAddressItems` (the aggregation loop): the map starts
as the patch data for the prefecture and accumulates one record per unseen
key, first source row winning. -/
def getOazaAddressItems (prefCode : Str) (kanaItems : List KanaEntry)
    (romeItems : List RomeEntry) (rows : List OazaRow) (patchRecords : RecMap) :
    Except Unit RecMap :=
  dedupPass oazaKeyOf (buildOazaRecord prefCode kanaItems romeItems) rows patchRecords

/-- First pass of build.js `getGaikuAddressItems`: feed every row's
longitude/latitude to `addToCoords`, and append a raw GaikuPoint for every
row whose residential-display flag is the string "1". -/
def gaikuPass1 : List GaikuRow → CoordsMap → List GaikuPoint →
    CoordsMap × List GaikuPoint
  | [], cm, gps => (cm, gps)
  | row :: rest, cm, gps =>
    let cm2 := addToCoords cm (gaikuKeyOf row) (row.lng, row.lat)
    let gps2 :=
      if row.residentialFlag = str "1" then
        gps ++ [{ prefName := row.prefName
                  cityName := applyRename row.prefName row.cityName
                  townRaw := row.townRaw
                  gaikuNum := row.gaikuNum
                  lng := row.lng
                  lat := row.lat }]
      else gps
    gaikuPass1 rest cm2 gps2

/-- build.js `getGaikuAddressItems`: pass 1 fills the coordinate store and
the raw block-point list, pass 2 walks the rows again filling gaps in the
record map left by the Oaza pass.  Returns the updated coordinate store,
the record map and the block points. -/
def getGaikuAddressItems (prefCode : Str) (kanaItems : List KanaEntry)
    (romeItems : List RomeEntry) (rows : List GaikuRow) (coordsMap : CoordsMap)
    (records : RecMap) : Except Unit (CoordsMap × (RecMap × List GaikuPoint)) :=
  let p1 := gaikuPass1 rows coordsMap []
  match dedupPass gaikuKeyOf (buildGaikuRecord prefCode kanaItems romeItems p1.1)
      rows records with
  | .error e => .error e
  | .ok m => .ok (p1.1, (m, p1.2))

/-- Everything `main` hands the engine for one prefecture: the prefecture
code and name, the patch records pre-seeded into the map (modelled from the
spec: src/lib/import-patches.js is not under src/; §6 specifies patch data
as pre-built records keyed by record key), and the two source tables. -/
structure PrefInput where
  prefCode : Str
  prefName : Str
  patch : RecMap
  oazaRows : List OazaRow
  gaikuRows : List GaikuRow

/-- build.js `getAddressItems` for one prefecture: filter both postal
dictionaries to the prefecture name, run the Oaza pass from the patch
records, then the Gaiku passes.  The coordinate store is the process-global
`coords`, threaded in and out. -/
def getAddressItems (kanaAll : List KanaEntry) (romeAll : List RomeEntry)
    (coordsMap : CoordsMap) (p : PrefInput) :
    Except Unit (CoordsMap × (RecMap × List GaikuPoint)) :=
  let kanaItems := kanaAll.filter (fun e => e.prefName = p.prefName)
  let romeItems := romeAll.filter (fun e => e.prefName = p.prefName)
  match getOazaAddressItems p.prefCode kanaItems romeItems p.oazaRows p.patch with
  | .error e => .error e
  | .ok oazaData =>
    getGaikuAddressItems p.prefCode kanaItems romeItems p.gaikuRows coordsMap oazaData

/-- The prefecture loop of build.js `main`, sequential in list order: the
global coordinate store persists from one prefecture to the next (it is
never cleared); per-prefecture outputs are collected. -/
def runPrefs (kanaAll : List KanaEntry) (romeAll : List RomeEntry) :
    List PrefInput → CoordsMap →
    Except Unit (CoordsMap × List (RecMap × List GaikuPoint))
  | [], cm => .ok (cm, [])
  | p :: rest, cm =>
    match getAddressItems kanaAll romeAll cm p with
    | .error e => .error e
    | .ok (cm2, out) =>
      match runPrefs kanaAll romeAll rest cm2 with
      | .error e => .error e
      | .ok (cmF, outs) => .ok (cmF, out :: outs)

/-- The regex test `/^\d+$/.test(s)`: a non-empty string of ASCII digits. -/
def isNumericStr (s : Str) : Bool := s ≠ [] && s.all Char.isDigit

/-- JavaScript `s.replace(/\d+$/, '')`: drop the maximal run of trailing
ASCII digits. -/
def stripTrailingDigits (s : Str) : Str :=
  (s.reverse.dropWhile Char.isDigit).reverse

/-- Element `i` of a record array (`undefined` out of range never happens
at the indices the backfill reads on records of either shape). -/
def arrGet (a : List Str) (i : Nat) : Str := a.getD i []

/-- The normalized comparison string `district_name_rome` of the backfill
(build.js lines 626-645): strip trailing digits from slot 10, remove every
space, then the chain of literal first-occurrence corrections, ending with
the apostrophe removal. -/
def districtNameRome (townRome : Str) : Str :=
  let s0 := jsRemoveAllChar ' ' (stripTrailingDigits townRome)
  let s1 := replaceFirst s0 (str "SHINMAEDA") (str "SHIMMAEDA")
  let s2 := replaceFirst s1 (str "IYAMAMINAMI") (str "IIYAMAMINAMI")
  let s3 := replaceFirst s2 (str "OGISHINMACHIDORI") (str "OGISHIMMACHIDORI")
  let s4 := replaceFirst s3 (str "AZANASHINOKI") (str "NASHINOKI")
  let s5 := replaceFirst s4 (str "KAMITOBASANOMOTOCHO") (str "KAMITOBAASANOMOTOCHO")
  let s6 := replaceFirst s5 (str "SANMAIBASHI") (str "SAMMAIBASHI")
  let s7 := replaceFirst s6 (str "TATEOKASHINMACHI") (str "TATEOKASHIMMACHI")
  let s8 := replaceFirst s7 (str "HACCHODAI") (str "HATCHODAI")
  let s9 := replaceFirst s8 (str "KANAIWAKAMIECHIZENMACHI") (str "KANAIWAKAMIECHIZEMMACHI")
  let s10 := replaceFirst s9 (str "KAMITOBAMINAMIWANOMOTOCHO") (str "KAMITOBAMINAMIIWANOMOTOCHO")
  let s11 := replaceFirst s10 (str "SHIZUKINIHAMA") (str "SHIZUKINIIHAMA")
  let s12 := replaceFirst s11 (str "TONDASHINMACHI") (str "TONDASHIMMACHI")
  let s13 := replaceFirst s12 (str "TATEOKASHIMINAMIWANOMOTOCHO") (str "TATEOKASHIMINAMIIWANOMOTOCHO")
  let s14 := replaceFirst s13 (str "SENBADORI") (str "SEMBADORI")
  let s15 := replaceFirst s14 (str "SHINMATSUYAMA") (str "SHIMMATSUYAMA")
  let s16 := replaceFirst s15 (str "SHINMATSUYAMAMINAMI") (str "SHIMMATSUYAMAMINAMI")
  let s17 := replaceFirst s16 (str "UCHIHASHINISHI") (str "UCHIHASHINISHI(SONOTA)")
  let s18 := replaceFirst s17 (str "JONANMINAMI") (str "JONAMMINAMI")
  replaceFirst s18 [Char.ofNat 39] []

/-- The candidate set of the backfill: romaji-dictionary rows whose
prefecture name equals slot 1, whose city romaji equals slot 7, and whose
town romaji, spaces removed, equals the normalized string or is empty. -/
def backfillCandidates (romeItems : List RomeEntry) (a : List Str) :
    List RomeEntry :=
  romeItems.filter (fun e =>
    e.prefName = arrGet a 1 ∧ e.cityRome = arrGet a 7 ∧
      (districtNameRome (arrGet a 10) = jsRemoveAllChar ' ' e.townRome ∨
        e.townRome = []))

/-- `array.splice(1, 0, x)`: insert an element at index 1. -/
def spliceIn1 (a : List Str) (x : Str) : List Str := a.take 1 ++ x :: a.drop 1

/-- What one run of the sqliteWriterQueue worker produces: the array the
insert statement receives, whether the unexpected-candidate-count
diagnostic was logged, and whether the manual-check warning was logged. -/
structure BackfillResult where
  array : List Str
  diag : Bool
  warn : Bool
deriving DecidableEq, Repr

/-- build.js sqliteWriterQueue worker (lines 622-665): when slot 1 is not
purely numeric, resolve a postal code from the romaji dictionary — one
candidate: take it (warning when its town romaji is empty); two
candidates: take the second; otherwise log the diagnostic and insert the
empty string — and splice the resolved value in at index 1.  A numeric
slot 1 leaves the array untouched. -/
def sqliteWriterStep (romeItems : List RomeEntry) (a : List Str) : BackfillResult :=
  if isNumericStr (arrGet a 1) then ⟨a, false, false⟩
  else
    match backfillCandidates romeItems a with
    | [e] => ⟨spliceIn1 a e.postal, false, e.townRome = []⟩
    | [_, f] => ⟨spliceIn1 a f.postal, false, false⟩
    | _ => ⟨spliceIn1 a [], true, false⟩

/-- The language of the regex capture group
`[二三四五六七八九]?十?[一二三四五六七八九]?`, in source (left-to-right)
order: the strings an optional tens digit, an optional 十 and an optional
units digit can form. -/
def chomeGroupLang : Str → Bool
  | [] => true
  | [c] => c = '十' || isUnitsKanji c
  | [c, d] =>
    (isTensKanji c && d = '十') || (c = '十' && isUnitsKanji d) ||
      (isTensKanji c && isUnitsKanji d)
  | [c, d, e] => isTensKanji c && d = '十' && isUnitsKanji e
  | _ => false

/-- Modelled from the spec: the kanji-to-number converter is the external
library @geolonia/japanese-numeral.  On the capture-group language it reads
an optional tens part (a digit, a bare 十, or a digit followed by 十) and
an optional units digit. -/
def kanji2number : Str → Nat
  | [c] => if c = '十' then 10 else kanjiDigit c
  | [c, d] =>
    if d = '十' then 10 * kanjiDigit c
    else if c = '十' then 10 + kanjiDigit d
    else 10 * kanjiDigit c + kanjiDigit d
  | [c, _, e] => 10 * kanjiDigit c + kanjiDigit e
  | _ => 0

/-- The fixed ordered correction table of the backfill, as data: the
nineteen literal substring corrections followed by the apostrophe
removal. -/
def romajiCorrections : List (Str × Str) :=
  [(str "SHINMAEDA", str "SHIMMAEDA"),
   (str "IYAMAMINAMI", str "IIYAMAMINAMI"),
   (str "OGISHINMACHIDORI", str "OGISHIMMACHIDORI"),
   (str "AZANASHINOKI", str "NASHINOKI"),
   (str "KAMITOBASANOMOTOCHO", str "KAMITOBAASANOMOTOCHO"),
   (str "SANMAIBASHI", str "SAMMAIBASHI"),
   (str "TATEOKASHINMACHI", str "TATEOKASHIMMACHI"),
   (str "HACCHODAI", str "HATCHODAI"),
   (str "KANAIWAKAMIECHIZENMACHI", str "KANAIWAKAMIECHIZEMMACHI"),
   (str "KAMITOBAMINAMIWANOMOTOCHO", str "KAMITOBAMINAMIIWANOMOTOCHO"),
   (str "SHIZUKINIHAMA", str "SHIZUKINIIHAMA"),
   (str "TONDASHINMACHI", str "TONDASHIMMACHI"),
   (str "TATEOKASHIMINAMIWANOMOTOCHO", str "TATEOKASHIMINAMIIWANOMOTOCHO"),
   (str "SENBADORI", str "SEMBADORI"),
   (str "SHINMATSUYAMA", str "SHIMMATSUYAMA"),
   (str "SHINMATSUYAMAMINAMI", str "SHIMMATSUYAMAMINAMI"),
   (str "UCHIHASHINISHI", str "UCHIHASHINISHI(SONOTA)"),
   (str "JONANMINAMI", str "JONAMMINAMI"),
   ([Char.ofNat 39], [])]

/-- The normalized comparison string as the claim states it: remove
trailing digits, remove embedded spaces, then fold the ordered correction
table with a first-occurrence substitution. -/
def districtNameRomeSpec (townRome : Str) : Str :=
  romajiCorrections.foldl (fun acc pr => replaceFirst acc pr.1 pr.2)
    ((stripTrailingDigits townRome).filter (fun c => c ≠ ' '))

/-- The candidate set as the claim states it: romaji-dictionary entries
with the record's prefecture name and city romaji whose town romaji, with
embedded spaces removed, equals the normalized string or is empty. -/
def backfillCandidatesSpec (romeItems : List RomeEntry)
    (prefName cityRome townRome : Str) : List RomeEntry :=
  romeItems.filter (fun e =>
    e.prefName = prefName ∧ e.cityRome = cityRome ∧
      (e.townRome.filter (fun c => c ≠ ' ') = districtNameRomeSpec townRome ∨
        e.townRome = []))

/-- Kana-dictionary row used by the concrete evaluations below: a
city-level row (empty town name) for 札幌市中央区, so every town of that
city resolves to it through attempt (c). -/
def exKanaEntry : KanaEntry :=
  { lgCode := str "01101"
    postal := str "0600000"
    prefKana := str "ﾎｯｶｲﾄﾞｳ"
    cityKana := str "ｻｯﾎﾟﾛｼﾁｭｳｵｳｸ"
    townKana := []
    prefName := str "北海道"
    cityName := str "札幌市中央区"
    townName := [] }

/-- Two romaji-dictionary rows for the backfill evaluations: a town-level
row and a city-level (empty town romaji) row of the same city. -/
def exRomeA : RomeEntry :=
  { postal := str "0600042"
    prefName := str "北海道"
    cityName := str "札幌市中央区"
    townName := str "大通西"
    prefRome := str "HOKKAIDO"
    cityRome := str "SAPPORO-SHI CHUO-KU"
    townRome := str "ODORI NISHI" }

def exRomeB : RomeEntry :=
  { postal := str "0600000"
    prefName := str "北海道"
    cityName := str "札幌市中央区"
    townName := []
    prefRome := str "HOKKAIDO"
    cityRome := str "SAPPORO-SHI CHUO-KU"
    townRome := [] }

/-- A district-level source row used by the concrete evaluations. -/
def exOazaRow : OazaRow :=
  { prefName := str "北海道"
    cityName := str "札幌市中央区"
    cityCode := str "01101"
    townRaw := str "大通西一丁目"
    lat := 43
    lng := 141 }

/-- A second row with the same record key but different payload: under
first-writer-wins it must be skipped. -/
def exOazaRow2 : OazaRow :=
  { exOazaRow with cityCode := str "99999", lat := 44, lng := 142 }

/-- A block-level source row with the same town, residential flag set. -/
def exGaikuRow : GaikuRow :=
  { prefName := str "北海道"
    cityName := str "札幌市中央区"
    townRaw := str "大通西一丁目"
    koazaRaw := str "NULL"
    residentialFlag := str "1"
    gaikuNum := str "5"
    lat := 43
    lng := 141 }

/-- Two consecutive prefecture inputs of the main loop: Hokkaido with one
block row, then Aomori with no rows at all. -/
def exPref1 : PrefInput :=
  { prefCode := str "01"
    prefName := str "北海道"
    patch := []
    oazaRows := []
    gaikuRows := [exGaikuRow] }

def exPref2 : PrefInput :=
  { prefCode := str "02"
    prefName := str "青森県"
    patch := []
    oazaRows := []
    gaikuRows := [] }

/-- The global coordinate store right after prefecture 01 is processed and
its records handed off. -/
def coordsAfterPref1 : CoordsMap :=
  match getAddressItems [exKanaEntry] [] [] exPref1 with
  | .ok r => r.1
  | .error _ => []

/-- The global coordinate store after the two-prefecture run. -/
def coordsAfterBoth : CoordsMap :=
  match runPrefs [exKanaEntry] [] [exPref1, exPref2] [] with
  | .ok r => r.1
  | .error _ => []

/-- A coordinate store inherited from some other prefecture's pass: one
key of Aomori with one sample. -/
def exForeignCoords : CoordsMap :=
  [({ pref := str "青森県", city := str "青森市", town := str "本町", koaza := [] },
    [(140, 40)])]

/-- The Oaza pass run on the two equal-key rows above. -/
def exOazaResult : RecMap :=
  (getOazaAddressItems (str "01") [exKanaEntry] [] [exOazaRow, exOazaRow2] []).toOption.getD []

/-- A record array in the shape the backfill acts on (no postal-code slot,
prefecture name in slot 1, city romaji in slot 7, town romaji in slot 10). -/
def exArray14 : List Str :=
  [str "01", str "北海道", str "ホッカイドウ", str "HOKKAIDO", str "01101",
   str "札幌市中央区", str "サッポロシチュウオウク", str "SAPPORO-SHI CHUO-KU",
   str "大通西一丁目", str "オオドオリニシ 1", str "ODORINISHI 1", [],
   str "43", str "141"]

/-- A record key used by the concrete coordinate evaluations. -/
def exKeyW : RecordKey :=
  { pref := str "北海道", city := str "札幌市", town := str "本町", koaza := [] }

theorem alget_append {α : Type} (m : List (RecordKey × α)) (k' : RecordKey)
    (r : α) (k : RecordKey) :
    alget (m ++ [(k', r)]) k =
      match alget m k with
      | some v => some v
      | none => if k' = k then some r else none := by
  induction m with
  | nil => simp [alget]
  | cons e rest ih =>
    by_cases h : e.1 = k
    · simp [alget, h]
    · simp [alget, h, ih]

theorem alget_eq_none_iff {α : Type} (m : List (RecordKey × α)) (k : RecordKey) :
    alget m k = none ↔ ∀ e ∈ m, e.1 ≠ k := by
  induction m with
  | nil => simp [alget]
  | cons e rest ih =>
    by_cases h : e.1 = k
    · simp [alget, h]
    · simp [alget, h, ih]

theorem keys_nodup_append {α : Type} (m : List (RecordKey × α)) (k : RecordKey)
    (r : α) (h : alget m k = none) (hn : (m.map Prod.fst).Nodup) :
    ((m ++ [(k, r)]).map Prod.fst).Nodup := by
  rw [List.map_append, List.nodup_append]
  refine ⟨hn, by simp, ?_⟩
  intro x hx hx'
  simp at hx'
  rcases List.mem_map.mp hx with ⟨e, he, hek⟩
  exact ((alget_eq_none_iff m k).mp h e he) (hx' ▸ hek)

theorem dedupPass_preserve {ρ : Type} (keyOf : ρ → RecordKey)
    (build : ρ → Except Unit AddressRecord) :
    ∀ (rows : List ρ) (m m' : RecMap), dedupPass keyOf build rows m = .ok m' →
      ∀ k v, alget m k = some v → alget m' k = some v := by
  intro rows
  induction rows with
  | nil =>
    intro m m' h k v hv
    simp [dedupPass] at h
    exact h ▸ hv
  | cons row rest ih =>
    intro m m' h k v hv
    simp only [dedupPass] at h
    split at h
    · exact ih m m' h k v hv
    · split at h
      · exact absurd h (by simp)
      · refine ih _ m' h k v ?_
        rw [alget_append, hv]

theorem dedupPass_nodup {ρ : Type} (keyOf : ρ → RecordKey)
    (build : ρ → Except Unit AddressRecord) :
    ∀ (rows : List ρ) (m m' : RecMap), dedupPass keyOf build rows m = .ok m' →
      (m.map Prod.fst).Nodup → (m'.map Prod.fst).Nodup := by
  intro rows
  induction rows with
  | nil =>
    intro m m' h hn
    simp [dedupPass] at h
    exact h ▸ hn
  | cons row rest ih =>
    intro m m' h hn
    simp only [dedupPass] at h
    split at h
    · exact ih m m' h hn
    · split at h
      · exact absurd h (by simp)
      · refine ih _ m' h (keys_nodup_append m (keyOf row) _ ?_ hn)
        rename_i hno _ _ _
        exact Option.not_isSome_iff_eq_none.mp hno

theorem dedupPass_first {ρ : Type} (keyOf : ρ → RecordKey)
    (build : ρ → Except Unit AddressRecord) :
    ∀ (rows : List ρ) (m m' : RecMap), dedupPass keyOf build rows m = .ok m' →
      ∀ k, alget m k = none →
        ∀ row, rows.find? (fun r => decide (keyOf r = k)) = some row →
          ∃ rec, build row = .ok rec ∧ alget m' k = some rec := by
  intro rows
  induction rows with
  | nil => intro m m' _ k _ row hf; simp at hf
  | cons r0 rest ih =>
    intro m m' h k hk row hf
    by_cases hkey : keyOf r0 = k
    · rw [List.find?_cons_of_pos _ (by simpa using hkey)] at hf
      cases hf
      simp only [dedupPass] at h
      rw [hkey, hk] at h
      simp only [Option.isSome_none, Bool.false_eq_true, if_false] at h
      split at h
      · exact absurd h (by simp)
      · rename_i rec hbuild
        refine ⟨rec, hbuild, ?_⟩
        refine dedupPass_preserve keyOf build rest _ m' h k rec ?_
        rw [alget_append, hk]
        simp
    · rw [List.find?_cons_of_neg _ (by simpa using hkey)] at hf
      simp only [dedupPass] at h
      split at h
      · exact ih m m' h k hk row hf
      · split at h
        · exact absurd h (by simp)
        · refine ih _ m' h k ?_ row hf
          rw [alget_append, hk, if_neg hkey]

/-- C3: for every prefecture and record key the output holds exactly one
record under that key: pre-seeded patch records are never overwritten by
the Oaza pass, Oaza-created records are never overwritten by the Gaiku
pass, keys stay unduplicated, and within each pass the first source row
producing a key wins while later rows with an equal key are skipped. -/
theorem oaza_gaiku_first_writer_wins
    (pc : Str) (ki : List KanaEntry) (ri : List RomeEntry)
    (rows : List OazaRow) (m0 m1 : RecMap)
    (h : getOazaAddressItems pc ki ri rows m0 = .ok m1) :
    (∀ k v, alget m0 k = some v → alget m1 k = some v) ∧
    ((m0.map Prod.fst).Nodup → (m1.map Prod.fst).Nodup) ∧
    (∀ k, alget m0 k = none →
      ∀ row, rows.find? (fun r => decide (oazaKeyOf r = k)) = some row →
        ∃ rec, buildOazaRecord pc ki ri row = .ok rec ∧ alget m1 k = some rec) ∧
    (∀ (grows : List GaikuRow) (cm cm2 : CoordsMap) (m2 : RecMap)
        (gps : List GaikuPoint),
      getGaikuAddressItems pc ki ri grows cm m1 = .ok (cm2, (m2, gps)) →
      (∀ k v, alget m1 k = some v → alget m2 k = some v) ∧
      ((m1.map Prod.fst).Nodup → (m2.map Prod.fst).Nodup) ∧
      (∀ k, alget m1 k = none →
        ∀ row, grows.find? (fun r => decide (gaikuKeyOf r = k)) = some row →
          ∃ rec,
            buildGaikuRecord pc ki ri (gaikuPass1 grows cm []).1 row = .ok rec ∧
              alget m2 k = some rec)) := by
  refine ⟨dedupPass_preserve _ _ rows m0 m1 h, dedupPass_nodup _ _ rows m0 m1 h,
    dedupPass_first _ _ rows m0 m1 h, ?_⟩
  intro grows cm cm2 m2 gps hg
  simp only [getGaikuAddressItems] at hg
  split at hg
  · exact absurd hg (by simp)
  · rename_i m hm
    simp only [Except.ok.injEq, Prod.mk.injEq] at hg
    obtain ⟨-, hm2, -⟩ := hg
    exact hm2 ▸
      ⟨dedupPass_preserve _ _ grows m1 m hm, dedupPass_nodup _ _ grows m1 m hm,
        dedupPass_first _ _ grows m1 m hm⟩

/-- C3 witness: on a concrete two-row run with equal keys, the first row's
record is the one bound to the key. -/
theorem oaza_first_writer_wins_witness :
    ∃ rec, buildOazaRecord (str "01") [exKanaEntry] [] exOazaRow = .ok rec ∧
      alget exOazaResult (oazaKeyOf exOazaRow) = some rec :=
  (oaza_gaiku_first_writer_wins (str "01") [exKanaEntry] [] [exOazaRow, exOazaRow2]
      [] exOazaResult rfl).2.2.1 (oazaKeyOf exOazaRow) rfl exOazaRow rfl

/-- C6: the backfill acts only when slot 1 is not purely numeric, and then
only inserts one resolved postal value at index 1, preserving every other
slot in order; the aggregation passes never rebind an existing key, so no
record is mutated after its creation. -/
theorem backfill_frame_only_postal (ri : List RomeEntry) (a : List Str) :
    (isNumericStr (arrGet a 1) = true → sqliteWriterStep ri a = ⟨a, false, false⟩) ∧
    (isNumericStr (arrGet a 1) = false →
      ∃ c, (sqliteWriterStep ri a).array = a.take 1 ++ c :: a.drop 1) ∧
    (∀ pc ki (rows : List OazaRow) m0 m1,
      getOazaAddressItems pc ki ri rows m0 = .ok m1 →
      ∀ k v, alget m0 k = some v → alget m1 k = some v) ∧
    (∀ pc ki (grows : List GaikuRow) cm cm2 m1 m2 gps,
      getGaikuAddressItems pc ki ri grows cm m1 = .ok (cm2, (m2, gps)) →
      ∀ k v, alget m1 k = some v → alget m2 k = some v) := by
  refine ⟨?_, ?_, ?_, ?_⟩
  · intro h; simp [sqliteWriterStep, h]
  · intro h
    simp only [sqliteWriterStep, h, Bool.false_eq_true, if_false]
    split
    · exact ⟨_, rfl⟩
    · exact ⟨_, rfl⟩
    · exact ⟨_, rfl⟩
  · intro pc ki rows m0 m1 h k v hv
    exact dedupPass_preserve _ _ rows m0 m1 h k v hv
  · intro pc ki grows cm cm2 m1 m2 gps hg k v hv
    simp only [getGaikuAddressItems] at hg
    split at hg
    · exact absurd hg (by simp)
    · rename_i m hm
      simp only [Except.ok.injEq, Prod.mk.injEq] at hg
      obtain ⟨-, hm2, -⟩ := hg
      exact hm2 ▸ dedupPass_preserve _ _ grows m1 m hm k v hv

/-- C6 witness: the backfill on a concrete postal-less array inserts one
value at index 1 and leaves every other slot where it was. -/
theorem backfill_frame_only_postal_witness :
    ∃ c, (sqliteWriterStep [] exArray14).array =
      exArray14.take 1 ++ c :: exArray14.drop 1 :=
  (backfill_frame_only_postal [] exArray14).2.1 rfl

/-- C1 counterexample: with an empty kana dictionary the lookup misses, and
the Oaza pass does not construct a record for the row — it aborts with the
TypeError of the unguarded postal-code read, refuting the claim that a
missing dictionary match never prevents record construction. -/
theorem missing_kana_entry_aborts_pass :
    lookupKanaItem (applyRename exOazaRow.prefName exOazaRow.cityName)
      (removeUnnecessarySpace exOazaRow.townRaw) [] = none ∧
    getOazaAddressItems (str "01") [] [] [exOazaRow] [] = .error () :=
  ⟨rfl, rfl⟩

/-- C1 amended: a missing romaji entry never prevents record construction —
in either aggregator the record is built with empty strings in every romaji
field and the kana postal code kept (at Gaiku level given the key's
accumulated samples, which pass 1 guarantees); but a missing kana entry
makes record construction throw (build.js reads
`postalCodeKanaItem['郵便番号']` without a guard), in both aggregators. -/
theorem missing_dictionary_entry_handling
    (pc : Str) (ki : List KanaEntry) (ri : List RomeEntry) (row : OazaRow) :
    (lookupKanaItem (applyRename row.prefName row.cityName)
        (removeUnnecessarySpace row.townRaw) ki = none →
      buildOazaRecord pc ki ri row = .error ()) ∧
    (∀ k, lookupKanaItem (applyRename row.prefName row.cityName)
        (removeUnnecessarySpace row.townRaw) ki = some k →
      lookupRomeItem (applyRename row.prefName row.cityName)
        (removeUnnecessarySpace row.townRaw) ri = none →
      ∃ rec, buildOazaRecord pc ki ri row = .ok rec ∧
        rec.prefRome = [] ∧ rec.cityRome = [] ∧ rec.townRome = [] ∧
        rec.postal = k.postal) ∧
    (∀ (cm : CoordsMap) (grow : GaikuRow) (center : ℚ × ℚ) k,
      getCenter cm (gaikuKeyOf grow) = some center →
      lookupKanaItem (applyRename grow.prefName grow.cityName)
        (removeUnnecessarySpace grow.townRaw) ki = some k →
      lookupRomeItem (applyRename grow.prefName grow.cityName)
        (removeUnnecessarySpace grow.townRaw) ri = none →
      ∃ rec, buildGaikuRecord pc ki ri cm grow = .ok rec ∧
        rec.prefRome = [] ∧ rec.cityRome = [] ∧ rec.townRome = [] ∧
        rec.postal = k.postal) ∧
    (∀ (cm : CoordsMap) (grow : GaikuRow),
      lookupKanaItem (applyRename grow.prefName grow.cityName)
        (removeUnnecessarySpace grow.townRaw) ki = none →
      ∀ rec, buildGaikuRecord pc ki ri cm grow ≠ .ok rec) := by
  refine ⟨?_, ?_, ?_, ?_⟩
  · intro h
    simp [buildOazaRecord, h]
  · intro k hk hr
    simp only [buildOazaRecord, hk, hr]
    exact ⟨_, rfl, rfl, rfl, rfl, rfl⟩
  · intro cm grow center k hc hk hr
    simp only [buildGaikuRecord, hc, hk, hr]
    exact ⟨_, rfl, rfl, rfl, rfl, rfl⟩
  · intro cm grow h rec hcontra
    simp only [buildGaikuRecord, h] at hcontra
    split at hcontra
    · exact absurd hcontra (by simp)
    · exact absurd hcontra (by simp)

/-- C10: an Oaza-created record takes its city code from the source row's
municipal-code column; a Gaiku-created record takes it from the matched
kana entry's national municipal-code field, and its construction fails
outright when the kana lookup misses. -/
theorem cityCode_source_by_aggregator
    (pc : Str) (ki : List KanaEntry) (ri : List RomeEntry) :
    (∀ row rec, buildOazaRecord pc ki ri row = .ok rec →
      rec.cityCode = row.cityCode) ∧
    (∀ (cm : CoordsMap) (row : GaikuRow) rec,
      buildGaikuRecord pc ki ri cm row = .ok rec →
      ∃ k, lookupKanaItem (applyRename row.prefName row.cityName)
          (removeUnnecessarySpace row.townRaw) ki = some k ∧
        rec.cityCode = k.lgCode) ∧
    (∀ (cm : CoordsMap) (row : GaikuRow),
      lookupKanaItem (applyRename row.prefName row.cityName)
        (removeUnnecessarySpace row.townRaw) ki = none →
      ∀ rec, buildGaikuRecord pc ki ri cm row ≠ .ok rec) := by
  refine ⟨?_, ?_, ?_⟩
  · intro row rec h
    simp only [buildOazaRecord] at h
    split at h
    · exact absurd h (by simp)
    · cases h
      rfl
  · intro cm row rec h
    simp only [buildGaikuRecord] at h
    split at h
    · exact absurd h (by simp)
    · split at h
      · exact absurd h (by simp)
      · rename_i k hk
        cases h
        exact ⟨k, hk, rfl⟩
  · intro cm row h rec hcontra
    simp only [buildGaikuRecord, h] at hcontra
    split at hcontra
    · exact absurd hcontra (by simp)
    · exact absurd hcontra (by simp)

theorem jsRemoveAllChar_eq_filter (x : Char) (s : Str) :
    jsRemoveAllChar x s = s.filter (fun c => c ≠ x) := by
  induction s with
  | nil => rfl
  | cons c rest ih =>
    by_cases h : c = x
    · simp [jsRemoveAllChar, h, ih]
    · simp [jsRemoveAllChar, h, ih]

theorem districtNameRome_eq_spec (s : Str) :
    districtNameRome s = districtNameRomeSpec s := by
  simp only [districtNameRome, districtNameRomeSpec, romajiCorrections,
    List.foldl_cons, List.foldl_nil, jsRemoveAllChar_eq_filter]

/-- C5: the backfill's comparison string is exactly the claimed
normalization (trailing digits removed, embedded spaces removed, the
ordered correction table applied first-occurrence-wise), and its candidate
set is exactly the claimed filter of the romaji dictionary. -/
theorem backfill_normalization_matches_spec :
    (∀ s : Str, districtNameRome s = districtNameRomeSpec s) ∧
    (∀ (ri : List RomeEntry) (a : List Str),
      backfillCandidates ri a =
        backfillCandidatesSpec ri (arrGet a 1) (arrGet a 7) (arrGet a 10)) := by
  refine ⟨districtNameRome_eq_spec, ?_⟩
  intro ri a
  apply List.filter_congr
  intro e _
  simp only [decide_eq_decide]
  rw [districtNameRome_eq_spec, jsRemoveAllChar_eq_filter]
  constructor
  · rintro ⟨h1, h2, h3 | h3⟩
    · exact ⟨h1, h2, Or.inl h3.symm⟩
    · exact ⟨h1, h2, Or.inr h3⟩
  · rintro ⟨h1, h2, h3 | h3⟩
    · exact ⟨h1, h2, Or.inl h3.symm⟩
    · exact ⟨h1, h2, Or.inr h3⟩

/-- C2: the backfill runs exactly on arrays whose postal slot is not
purely numeric; one candidate: accept its postal code; two candidates:
accept the second's; zero or more than two: insert the empty string, log
the diagnostic, and still emit the record. -/
theorem backfill_candidate_selection (ri : List RomeEntry) (a : List Str) :
    (isNumericStr (arrGet a 1) = true → sqliteWriterStep ri a = ⟨a, false, false⟩) ∧
    (isNumericStr (arrGet a 1) = false →
      (∀ e, backfillCandidates ri a = [e] →
        sqliteWriterStep ri a =
          ⟨spliceIn1 a e.postal, false, decide (e.townRome = [])⟩) ∧
      (∀ e f, backfillCandidates ri a = [e, f] →
        sqliteWriterStep ri a = ⟨spliceIn1 a f.postal, false, false⟩) ∧
      (backfillCandidates ri a = [] ∨ 2 < (backfillCandidates ri a).length →
        sqliteWriterStep ri a = ⟨spliceIn1 a [], true, false⟩)) := by
  refine ⟨?_, ?_⟩
  · intro h; simp [sqliteWriterStep, h]
  · intro h
    refine ⟨?_, ?_, ?_⟩
    · intro e he
      simp [sqliteWriterStep, h, he]
    · intro e f he
      simp [sqliteWriterStep, h, he]
    · rintro (he | hlen)
      · simp [sqliteWriterStep, h, he]
      · rcases hc : backfillCandidates ri a with _ | ⟨x, _ | ⟨y, _ | ⟨z, t⟩⟩⟩
        · rw [hc] at hlen; simp at hlen
        · rw [hc] at hlen; simp at hlen
        · rw [hc] at hlen; simp at hlen
        · simp [sqliteWriterStep, h, hc]

/-- C2 witness: a concrete run with exactly two candidates takes the
second candidate's postal code. -/
theorem backfill_two_candidates_witness :
    sqliteWriterStep [exRomeA, exRomeB] exArray14 =
      ⟨spliceIn1 exArray14 exRomeB.postal, false, false⟩ :=
  ((backfill_candidate_selection [exRomeA, exRomeB] exArray14).2 rfl).2.1
    exRomeA exRomeB rfl

theorem nearest_foldl_mem (target : ℚ × ℚ) (l : List (ℚ × ℚ)) (b : ℚ × ℚ) :
    l.foldl (nearestStep target) b = b ∨ l.foldl (nearestStep target) b ∈ l := by
  induction l generalizing b with
  | nil => exact Or.inl rfl
  | cons p rest ih =>
    simp only [List.foldl_cons]
    rcases ih (nearestStep target b p) with h | h
    · rw [h]
      unfold nearestStep
      split
      · exact Or.inr (List.mem_cons_self p rest)
      · exact Or.inl rfl
    · exact Or.inr (List.mem_cons_of_mem p h)

theorem nearest_foldl_min (target : ℚ × ℚ) (l : List (ℚ × ℚ)) (b : ℚ × ℚ) :
    dist2 target (l.foldl (nearestStep target) b) ≤ dist2 target b ∧
      ∀ q ∈ l, dist2 target (l.foldl (nearestStep target) b) ≤ dist2 target q := by
  induction l generalizing b with
  | nil => exact ⟨le_refl _, by simp⟩
  | cons p rest ih =>
    simp only [List.foldl_cons]
    have hb : dist2 target (nearestStep target b p) ≤ dist2 target b := by
      unfold nearestStep
      split
      · exact le_of_lt (by assumption)
      · exact le_refl _
    have hp : dist2 target (nearestStep target b p) ≤ dist2 target p := by
      unfold nearestStep
      split
      · exact le_refl _
      · exact not_lt.mp (by assumption)
    refine ⟨le_trans (ih (nearestStep target b p)).1 hb, ?_⟩
    intro q hq
    rcases List.mem_cons.mp hq with rfl | hq'
    · exact le_trans (ih (nearestStep target b q)).1 hp
    · exact (ih (nearestStep target b p)).2 q hq'

theorem addToCoords_alget (m : CoordsMap) (k0 : RecordKey) (c : ℚ × ℚ)
    (k : RecordKey) :
    alget (addToCoords m k0 c) k =
      if k0 = k then some ((alget m k).getD [] ++ [c]) else alget m k := by
  induction m with
  | nil =>
    by_cases h : k0 = k <;> simp [addToCoords, alget, h]
  | cons e rest ih =>
    simp only [addToCoords]
    by_cases he : e.1 = k0
    · rw [if_pos he]
      by_cases hk : e.1 = k
      · have hk0 : k0 = k := he ▸ hk
        simp [alget, hk, hk0]
      · have hk0 : ¬k0 = k := fun h => hk (he.trans h)
        simp [alget, hk, hk0]
    · rw [if_neg he]
      by_cases hk : e.1 = k
      · have hk0 : ¬k0 = k := fun h => he (hk.trans h.symm)
        simp [alget, hk, hk0]
      · simp [alget, hk, ih]

/-- C4: for every key with at least one accumulated sample, getCenter
returns one of the exact samples stored for the key — one minimizing the
squared Euclidean distance in lon/lat space to the bounding-box center —
and addToCoords only ever appends samples. -/
theorem getCenter_returns_nearest_sample (cm : CoordsMap) (k : RecordKey)
    (arr : List (ℚ × ℚ)) (h : alget cm k = some arr) (hne : arr ≠ []) :
    (∃ p, getCenter cm k = some p ∧ p ∈ arr ∧
      ∀ q ∈ arr, dist2 (bboxCenter arr) p ≤ dist2 (bboxCenter arr) q) ∧
    (∀ c, alget (addToCoords cm k c) k = some (arr ++ [c])) ∧
    (∀ (cm' : CoordsMap) (k' : RecordKey) (c : ℚ × ℚ), alget cm' k' = none →
      alget (addToCoords cm' k' c) k' = some [c]) := by
  refine ⟨?_, ?_, ?_⟩
  · match arr, hne with
    | p :: rest, _ =>
      refine ⟨(p :: rest).tail.foldl (nearestStep (bboxCenter (p :: rest))) p,
        ?_, ?_, ?_⟩
      · simp [getCenter, h, nearestPoint]
      · rcases nearest_foldl_mem (bboxCenter (p :: rest)) rest p with hm | hm
        · simp only [List.tail_cons, hm]
          exact List.mem_cons_self p rest
        · exact List.mem_cons_of_mem p hm
      · intro q hq
        rcases List.mem_cons.mp hq with rfl | hq'
        · exact (nearest_foldl_min (bboxCenter (q :: rest)) rest q).1
        · exact (nearest_foldl_min (bboxCenter (p :: rest)) rest p).2 q hq'
  · intro c
    rw [addToCoords_alget, if_pos rfl, h]
    rfl
  · intro cm' k' c h'
    rw [addToCoords_alget, if_pos rfl, h']
    rfl

/-- C4 witness: with two equidistant samples the first stored sample is
returned, and it is one of the samples. -/
theorem getCenter_returns_nearest_sample_witness :
    ∃ p, getCenter [(exKeyW, [((0 : ℚ), (0 : ℚ)), ((2 : ℚ), (0 : ℚ))])] exKeyW =
        some p ∧
      p ∈ [((0 : ℚ), (0 : ℚ)), ((2 : ℚ), (0 : ℚ))] ∧
      ∀ q ∈ [((0 : ℚ), (0 : ℚ)), ((2 : ℚ), (0 : ℚ))],
        dist2 (bboxCenter [((0 : ℚ), (0 : ℚ)), ((2 : ℚ), (0 : ℚ))]) p ≤
          dist2 (bboxCenter [((0 : ℚ), (0 : ℚ)), ((2 : ℚ), (0 : ℚ))]) q :=
  (getCenter_returns_nearest_sample
      [(exKeyW, [((0 : ℚ), (0 : ℚ)), ((2 : ℚ), (0 : ℚ))])] exKeyW
      [((0 : ℚ), (0 : ℚ)), ((2 : ℚ), (0 : ℚ))] rfl (by simp)).1

theorem gaikuPass1_points_indep :
    ∀ (rows : List GaikuRow) (cmA cmB : CoordsMap) (gps : List GaikuPoint),
      (gaikuPass1 rows cmA gps).2 = (gaikuPass1 rows cmB gps).2 := by
  intro rows
  induction rows with
  | nil => intro cmA cmB gps; rfl
  | cons row rest ih =>
    intro cmA cmB gps
    simp only [gaikuPass1]
    exact ih _ _ _

theorem gaikuPass1_alget_congr :
    ∀ (rows : List GaikuRow) (cmA cmB : CoordsMap) (gpA gpB : List GaikuPoint)
      (k : RecordKey), alget cmA k = alget cmB k →
      alget (gaikuPass1 rows cmA gpA).1 k = alget (gaikuPass1 rows cmB gpB).1 k := by
  intro rows
  induction rows with
  | nil => intro cmA cmB gpA gpB k h; exact h
  | cons row rest ih =>
    intro cmA cmB gpA gpB k h
    simp only [gaikuPass1]
    refine ih _ _ _ _ k ?_
    rw [addToCoords_alget, addToCoords_alget, h]

theorem buildGaikuRecord_coords_congr (pc : Str) (ki : List KanaEntry)
    (ri : List RomeEntry) (cmA cmB : CoordsMap) (row : GaikuRow)
    (h : alget cmA (gaikuKeyOf row) = alget cmB (gaikuKeyOf row)) :
    buildGaikuRecord pc ki ri cmA row = buildGaikuRecord pc ki ri cmB row := by
  have hc : getCenter cmA (gaikuKeyOf row) = getCenter cmB (gaikuKeyOf row) := by
    unfold getCenter
    rw [h]
  simp only [buildGaikuRecord, hc]

theorem dedupPass_build_congr {ρ : Type} (keyOf : ρ → RecordKey)
    (buildA buildB : ρ → Except Unit AddressRecord) :
    ∀ (rows : List ρ), (∀ r ∈ rows, buildA r = buildB r) →
      ∀ m, dedupPass keyOf buildA rows m = dedupPass keyOf buildB rows m := by
  intro rows
  induction rows with
  | nil => intro _ m; rfl
  | cons row rest ih =>
    intro h m
    simp only [dedupPass]
    rw [h row (List.mem_cons_self row rest)]
    split
    · exact ih (fun r hr => h r (List.mem_cons_of_mem row hr)) m
    · split
      · rfl
      · exact ih (fun r hr => h r (List.mem_cons_of_mem row hr)) _

/-- C8 amended: record maps and filtered dictionaries are created afresh
per prefecture, and although the coordinate store is process-global and
never cleared, a prefecture whose rows name prefectures absent from the
inherited store produces exactly the records and block points it would
produce from an empty store. -/
theorem per_pref_outputs_independent_of_inherited_coords
    (ka : List KanaEntry) (ro : List RomeEntry) (cm0 : CoordsMap) (p : PrefInput)
    (h : ∀ e ∈ cm0, ∀ row ∈ p.gaikuRows, e.1.pref ≠ row.prefName) :
    (getAddressItems ka ro cm0 p).map Prod.snd =
      (getAddressItems ka ro [] p).map Prod.snd := by
  have hnone : ∀ row ∈ p.gaikuRows, alget cm0 (gaikuKeyOf row) = none := by
    intro row hrow
    rw [alget_eq_none_iff]
    intro e he hek
    exact h e he row hrow (by rw [hek]; rfl)
  have hkey : ∀ row ∈ p.gaikuRows,
      alget (gaikuPass1 p.gaikuRows cm0 []).1 (gaikuKeyOf row) =
        alget (gaikuPass1 p.gaikuRows [] []).1 (gaikuKeyOf row) := by
    intro row hrow
    refine gaikuPass1_alget_congr p.gaikuRows cm0 [] [] [] (gaikuKeyOf row) ?_
    rw [hnone row hrow]
    rfl
  simp only [getAddressItems]
  cases hO : getOazaAddressItems p.prefCode
      (ka.filter (fun e => e.prefName = p.prefName))
      (ro.filter (fun e => e.prefName = p.prefName)) p.oazaRows p.patch with
  | error e => rfl
  | ok m1 =>
    simp only [getGaikuAddressItems]
    have hpass :
        dedupPass gaikuKeyOf
            (buildGaikuRecord p.prefCode
              (ka.filter (fun e => e.prefName = p.prefName))
              (ro.filter (fun e => e.prefName = p.prefName))
              (gaikuPass1 p.gaikuRows cm0 []).1) p.gaikuRows m1 =
          dedupPass gaikuKeyOf
            (buildGaikuRecord p.prefCode
              (ka.filter (fun e => e.prefName = p.prefName))
              (ro.filter (fun e => e.prefName = p.prefName))
              (gaikuPass1 p.gaikuRows [] []).1) p.gaikuRows m1 := by
      refine dedupPass_build_congr _ _ _ p.gaikuRows ?_ m1
      intro r hr
      exact buildGaikuRecord_coords_congr _ _ _ _ _ r (hkey r hr)
    rw [hpass, gaikuPass1_points_indep p.gaikuRows cm0 []]
    cases hD : dedupPass gaikuKeyOf
        (buildGaikuRecord p.prefCode
          (ka.filter (fun e => e.prefName = p.prefName))
          (ro.filter (fun e => e.prefName = p.prefName))
          (gaikuPass1 p.gaikuRows [] []).1) p.gaikuRows m1 with
    | error e => rfl
    | ok m => rfl

/-- C8 witness: a store inherited from another prefecture's keys leaves a
concrete prefecture's records and block points unchanged. -/
theorem per_pref_outputs_independent_witness :
    (getAddressItems [exKanaEntry] [] exForeignCoords exPref1).map Prod.snd =
      (getAddressItems [exKanaEntry] [] [] exPref1).map Prod.snd :=
  per_pref_outputs_independent_of_inherited_coords [exKanaEntry] [] exForeignCoords
    exPref1 (by decide)

/-- C8 counterexample: the coordinate samples of prefecture 01 are still in
the global store when prefecture 02 is processed, and remain there after
the whole run — they are not discarded when 01's records are handed off. -/
theorem coords_survive_across_prefectures :
    alget coordsAfterPref1 (gaikuKeyOf exGaikuRow) = some [(141, 43)] ∧
    alget coordsAfterBoth (gaikuKeyOf exGaikuRow) = some [(141, 43)] :=
  ⟨rfl, rfl⟩

theorem replaceFirst_single_char (x : Char) (s : Str) :
    (x ∉ s ∧ replaceFirst s [x] [] = s) ∨
      ∃ a b, s = a ++ x :: b ∧ x ∉ a ∧ replaceFirst s [x] [] = a ++ b := by
  induction s with
  | nil => exact Or.inl ⟨by simp, rfl⟩
  | cons c rest ih =>
    by_cases h : c = x
    · subst h
      refine Or.inr ⟨[], rest, rfl, by simp, ?_⟩
      simp [replaceFirst, List.isPrefixOf]
    · rcases ih with ⟨hn, he⟩ | ⟨a, b, hsab, hna, he⟩
      · refine Or.inl ⟨by simp [hn, Ne.symm h], ?_⟩
        simp [replaceFirst, List.isPrefixOf, h, he]
        intro hxc
        exact absurd hxc.symm h
      · subst hsab
        refine Or.inr ⟨c :: a, b, rfl, by simp [hna, Ne.symm h], ?_⟩
        simp [replaceFirst, List.isPrefixOf, he]
        intro hxc
        exact absurd hxc.symm h

theorem dropWhile_decomp (p : Char → Bool) (l : Str) :
    ∃ u, l = u ++ l.dropWhile p ∧ (∀ c ∈ u, p c = true) ∧
      ∀ c, (l.dropWhile p).head? = some c → p c = false := by
  induction l with
  | nil => exact ⟨[], rfl, by simp, by simp⟩
  | cons c rest ih =>
    by_cases h : p c
    · obtain ⟨u, hu, hall, hh⟩ := ih
      refine ⟨c :: u, ?_, ?_, ?_⟩
      · rw [List.dropWhile_cons, if_pos h, List.cons_append]
        exact congrArg (c :: ·) hu
      · intro d hd
        rcases List.mem_cons.mp hd with rfl | hd'
        · exact h
        · exact hall d hd'
      · intro d hd
        rw [List.dropWhile_cons, if_pos h] at hd
        exact hh d hd
    · refine ⟨[], ?_, by simp, ?_⟩
      · rw [List.dropWhile_cons, if_neg h, List.nil_append]
      · intro d hd
        rw [List.dropWhile_cons, if_neg h] at hd
        cases hd
        exact Bool.not_eq_true _ ▸ (by simpa using h)

theorem jsTrim_decomp (s : Str) :
    ∃ u v, s = u ++ (jsTrim s ++ v) ∧ (∀ c ∈ u, jsWhitespace c = true) ∧
      (∀ c ∈ v, jsWhitespace c = true) ∧
      (jsTrim s).head?.all (fun c => !jsWhitespace c) = true ∧
      (jsTrim s).getLast?.all (fun c => !jsWhitespace c) = true := by
  obtain ⟨u, hu, hup, huh⟩ := dropWhile_decomp jsWhitespace s
  obtain ⟨w, hw, hwp, hwh⟩ :=
    dropWhile_decomp jsWhitespace (s.dropWhile jsWhitespace).reverse
  have htrim : jsTrim s =
      ((s.dropWhile jsWhitespace).reverse.dropWhile jsWhitespace).reverse := rfl
  have hm2 : s.dropWhile jsWhitespace =
      ((s.dropWhile jsWhitespace).reverse.dropWhile jsWhitespace).reverse ++
        w.reverse := by
    have h2 := congrArg List.reverse hw
    simpa using h2
  refine ⟨u, w.reverse, ?_, hup, ?_, ?_, ?_⟩
  · rw [htrim, ← hm2, ← hu]
  · intro c hc
    exact hwp c (List.mem_reverse.mp hc)
  · rw [htrim]
    cases hdr : ((s.dropWhile jsWhitespace).reverse.dropWhile jsWhitespace).reverse with
    | nil => simp
    | cons x xs =>
      have hx : (s.dropWhile jsWhitespace).head? = some x := by
        rw [hm2, hdr]
        rfl
      have := huh x hx
      simp [this]
  · rw [htrim, List.getLast?_reverse]
    cases hD : (s.dropWhile jsWhitespace).reverse.dropWhile jsWhitespace with
    | nil => simp [hD]
    | cons x xs =>
      have hx : ((s.dropWhile jsWhitespace).reverse.dropWhile jsWhitespace).head? =
          some x := by rw [hD]; rfl
      have := hwh x hx
      simp [hD, this]

/-- C9 counterexample: `removeUnnecessarySpace` deletes only the first
ideographic space (a second one survives embedded), and its trim also
strips non-ASCII whitespace such as NBSP — both contradicting the claim
as stated. -/
theorem removeUnnecessarySpace_counterexample :
    removeUnnecessarySpace (str "a　b　c") = str "ab　c" ∧
    removeUnnecessarySpaceClaimed (str "a　b　c") = str "abc" ∧
    removeUnnecessarySpace (str "a　b　c") ≠
      removeUnnecessarySpaceClaimed (str "a　b　c") ∧
    removeUnnecessarySpace (str "  x") = str "x" ∧
    removeUnnecessarySpaceClaimed (str "  x") = str " x" :=
  ⟨rfl, rfl, by decide, rfl, rfl⟩

/-- C9 amended: `removeUnnecessarySpace` deletes the first occurrence of
the full-width space, then trims JavaScript whitespace (ASCII whitespace
and also NBSP, ZWNBSP, Unicode space separators and line separators) from
both ends; no other character is altered, reordered or introduced. -/
theorem removeUnnecessarySpace_amended (s : Str) :
    ∃ t u v,
      ((fullWidthSpace ∉ s ∧ t = s) ∨
        ∃ a b, s = a ++ fullWidthSpace :: b ∧ fullWidthSpace ∉ a ∧ t = a ++ b) ∧
      t = u ++ (removeUnnecessarySpace s ++ v) ∧
      (∀ c ∈ u, jsWhitespace c = true) ∧ (∀ c ∈ v, jsWhitespace c = true) ∧
      (removeUnnecessarySpace s).head?.all (fun c => !jsWhitespace c) = true ∧
      (removeUnnecessarySpace s).getLast?.all (fun c => !jsWhitespace c) = true := by
  obtain ⟨u, v, hdecomp, hu, hv, hh, hl⟩ :=
    jsTrim_decomp (replaceFirst s [fullWidthSpace] [])
  refine ⟨replaceFirst s [fullWidthSpace] [], u, v, ?_, hdecomp, hu, hv, hh, hl⟩
  rcases replaceFirst_single_char fullWidthSpace s with ⟨hnot, heq⟩ |
    ⟨a, b, hsab, hna, heq⟩
  · exact Or.inl ⟨hnot, heq⟩
  · exact Or.inr ⟨a, b, hsab, hna, heq⟩

theorem toDigitsCore_ne_nil :
    ∀ (fuel n : Nat) (ds : List Char), ds ≠ [] → Nat.toDigitsCore 10 fuel n ds ≠ [] := by
  intro fuel
  induction fuel with
  | zero => intro n ds h; exact h
  | succ f ih =>
    intro n ds h
    simp only [Nat.toDigitsCore]
    split
    · simp
    · exact ih _ _ (by simp)

theorem natRepr_data_ne_nil (n : Nat) : (Nat.repr n).data ≠ [] := by
  show Nat.toDigitsCore 10 (n + 1) n [] ≠ []
  simp only [Nat.toDigitsCore]
  split
  · simp
  · exact toDigitsCore_ne_nil _ _ _ (by simp)

theorem isUnitsKanji_ne_ju (c : Char) (h : isUnitsKanji c = true) : c ≠ '十' := by
  intro hc
  subst hc
  exact absurd h (by decide)

theorem isTensKanji_ne_ju (c : Char) (h : isTensKanji c = true) : c ≠ '十' := by
  intro hc
  subst hc
  exact absurd h (by decide)

theorem chomeGroup1_some (c : Char) (v n : Nat) (h : chomeGroup1 c = some (v, n)) :
    chomeGroupLang [c] = true ∧ kanji2number [c] = v := by
  unfold chomeGroup1 at h
  split_ifs at h with h1 h2
  · simp only [Option.some.injEq, Prod.mk.injEq] at h
    obtain ⟨rfl, rfl⟩ := h
    subst h1
    exact ⟨by decide, by decide⟩
  · simp only [Option.some.injEq, Prod.mk.injEq] at h
    obtain ⟨rfl, rfl⟩ := h
    exact ⟨by simp [chomeGroupLang, h2], by simp [kanji2number, h1]⟩

theorem chomeGroup2_some (c1 c2 : Char) (v n : Nat)
    (h : chomeGroup2 c1 c2 = some (v, n)) :
    chomeGroupLang [c2, c1] = true ∧ kanji2number [c2, c1] = v := by
  unfold chomeGroup2 at h
  split_ifs at h with h1 h2 h3
  · simp only [Option.some.injEq, Prod.mk.injEq] at h
    obtain ⟨rfl, rfl⟩ := h
    obtain ⟨ht, rfl⟩ := h1
    exact ⟨by simp [chomeGroupLang, ht], by simp [kanji2number]⟩
  · simp only [Option.some.injEq, Prod.mk.injEq] at h
    obtain ⟨rfl, rfl⟩ := h
    obtain ⟨rfl, hu⟩ := h2
    refine ⟨by simp [chomeGroupLang, hu], ?_⟩
    simp [kanji2number, isUnitsKanji_ne_ju c1 hu]
  · simp only [Option.some.injEq, Prod.mk.injEq] at h
    obtain ⟨rfl, rfl⟩ := h
    obtain ⟨ht, hu⟩ := h3
    refine ⟨by simp [chomeGroupLang, ht, hu], ?_⟩
    simp [kanji2number, isUnitsKanji_ne_ju c1 hu, isTensKanji_ne_ju c2 ht]

theorem chomeGroup3_some (c1 c2 c3 : Char) (v n : Nat)
    (h : chomeGroup3 c1 c2 c3 = some (v, n)) :
    chomeGroupLang [c3, c2, c1] = true ∧ kanji2number [c3, c2, c1] = v ∧
      c2 = '十' := by
  unfold chomeGroup3 at h
  split_ifs at h with h1
  · simp only [Option.some.injEq, Prod.mk.injEq] at h
    obtain ⟨rfl, rfl⟩ := h
    obtain ⟨hu, rfl, ht⟩ := h1
    exact ⟨by simp [chomeGroupLang, hu, ht], by simp [kanji2number], rfl⟩

theorem chomeGroupRev_some (t : Str) (v glen : Nat)
    (h : chomeGroupRev t = some (v, glen)) :
    ∃ g rest, t = g.reverse ++ rest ∧ chomeGroupLang g = true ∧ g ≠ [] ∧
      kanji2number g = v := by
  rcases t with _ | ⟨c1, _ | ⟨c2, _ | ⟨c3, r⟩⟩⟩
  · simp [chomeGroupRev] at h
  · obtain ⟨hl, hv⟩ := chomeGroup1_some c1 v glen h
    exact ⟨[c1], [], rfl, hl, by simp, hv⟩
  · simp only [chomeGroupRev] at h
    cases hg : chomeGroup2 c1 c2 with
    | some p =>
      simp only [hg] at h
      obtain rfl := Option.some.inj h
      obtain ⟨hl, hv⟩ := chomeGroup2_some c1 c2 v glen hg
      exact ⟨[c2, c1], [], rfl, hl, by simp, hv⟩
    | none =>
      simp only [hg] at h
      obtain ⟨hl, hv⟩ := chomeGroup1_some c1 v glen h
      exact ⟨[c1], [c2], rfl, hl, by simp, hv⟩
  · simp only [chomeGroupRev] at h
    cases hg3 : chomeGroup3 c1 c2 c3 with
    | some p =>
      simp only [hg3] at h
      obtain rfl := Option.some.inj h
      obtain ⟨hl, hv, -⟩ := chomeGroup3_some c1 c2 c3 v glen hg3
      exact ⟨[c3, c2, c1], r, by simp, hl, by simp, hv⟩
    | none =>
      simp only [hg3] at h
      cases hg2 : chomeGroup2 c1 c2 with
      | some p =>
        simp only [hg2] at h
        obtain rfl := Option.some.inj h
        obtain ⟨hl, hv⟩ := chomeGroup2_some c1 c2 v glen hg2
        exact ⟨[c2, c1], c3 :: r, by simp, hl, by simp, hv⟩
      | none =>
        simp only [hg2] at h
        obtain ⟨hl, hv⟩ := chomeGroup1_some c1 v glen h
        exact ⟨[c1], c2 :: c3 :: r, by simp, hl, by simp, hv⟩

theorem chomeGroupRev_cons_ne_none_1 (c : Char) (rest : Str)
    (h : chomeGroup1 c ≠ none) : chomeGroupRev (c :: rest) ≠ none := by
  rcases rest with _ | ⟨d, _ | ⟨e, r⟩⟩
  · exact h
  · simp only [chomeGroupRev]
    cases hg : chomeGroup2 c d
    · simpa [hg] using h
    · simp [hg]
  · simp only [chomeGroupRev]
    cases hg3 : chomeGroup3 c d e
    · cases hg2 : chomeGroup2 c d
      · simpa [hg3, hg2] using h
      · simp [hg3, hg2]
    · simp [hg3]

theorem chomeGroupRev_cons_ne_none_2 (c d : Char) (rest : Str)
    (h : chomeGroup2 c d ≠ none) : chomeGroupRev (c :: d :: rest) ≠ none := by
  rcases rest with _ | ⟨e, r⟩
  · simp only [chomeGroupRev]
    cases hg : chomeGroup2 c d
    · exact absurd hg h
    · simp [hg]
  · simp only [chomeGroupRev]
    cases hg3 : chomeGroup3 c d e
    · cases hg2 : chomeGroup2 c d
      · exact absurd hg2 h
      · simp [hg3, hg2]
    · simp [hg3]

theorem chomeGroupRev_cons_ne_none_3 (c d e : Char) (rest : Str)
    (h : chomeGroup3 c d e ≠ none) : chomeGroupRev (c :: d :: e :: rest) ≠ none := by
  simp only [chomeGroupRev]
  cases hg3 : chomeGroup3 c d e
  · exact absurd hg3 h
  · simp [hg3]

theorem chomeGroupLang_to_rev_ne_none (g : Str) (hl : chomeGroupLang g = true)
    (hne : g ≠ []) (rest : Str) : chomeGroupRev (g.reverse ++ rest) ≠ none := by
  rcases g with _ | ⟨c, _ | ⟨d, _ | ⟨e, _ | ⟨f, r⟩⟩⟩⟩
  · exact absurd rfl hne
  · refine chomeGroupRev_cons_ne_none_1 c rest ?_
    simp only [chomeGroupLang, Bool.or_eq_true, decide_eq_true_eq] at hl
    unfold chomeGroup1
    rcases hl with rfl | hu
    · simp
    · split_ifs <;> simp_all
  · refine chomeGroupRev_cons_ne_none_2 d c rest ?_
    simp only [chomeGroupLang, Bool.or_eq_true, Bool.and_eq_true,
      decide_eq_true_eq] at hl
    unfold chomeGroup2
    split_ifs with h1 h2 h3
    · simp
    · simp
    · simp
    · rcases hl with (⟨ht, rfl⟩ | ⟨rfl, hu⟩) | ⟨ht, hu⟩
      · exact absurd ⟨ht, rfl⟩ h1
      · exact absurd ⟨rfl, hu⟩ h2
      · exact absurd ⟨ht, hu⟩ h3
  · refine chomeGroupRev_cons_ne_none_3 e d c rest ?_
    simp only [chomeGroupLang, Bool.and_eq_true, decide_eq_true_eq] at hl
    unfold chomeGroup3
    rw [if_pos ⟨hl.2, hl.1.2, hl.1.1⟩]
    simp
  · simp [chomeGroupLang] at hl

theorem chomeTail_some (r t : Str) (n : Nat) (h : chomeTail r = some (t, n)) :
    r = '目' :: '丁' :: t ∨ r = '丁' :: t := by
  rcases r with _ | ⟨c, _ | ⟨d, r'⟩⟩
  · simp [chomeTail] at h
  · simp only [chomeTail] at h
    split_ifs at h with h1
    simp only [Option.some.injEq, Prod.mk.injEq] at h
    obtain ⟨rfl, rfl⟩ := h
    exact Or.inr (by rw [h1])
  · simp only [chomeTail] at h
    split_ifs at h with h1 h2
    · obtain ⟨hme, hcho⟩ := h1
      simp only [Option.some.injEq, Prod.mk.injEq] at h
      obtain ⟨rfl, rfl⟩ := h
      exact Or.inl (by rw [hme, hcho])
    · simp only [Option.some.injEq, Prod.mk.injEq] at h
      obtain ⟨rfl, rfl⟩ := h
      exact Or.inr (by rw [h2])

theorem chomeTail_cho (rest : Str) : chomeTail ('丁' :: rest) = some (rest, 1) := by
  rcases rest with _ | ⟨d, t⟩
  · simp [chomeTail]
  · simp [chomeTail]

theorem chomeTail_me (rest : Str) :
    chomeTail ('目' :: '丁' :: rest) = some (rest, 2) := by
  simp [chomeTail]

/-- C7: getChomeNumber succeeds exactly on texts ending in a non-empty
kanji district-number capture group followed by 丁 or 丁目, returning the
decimal digits of the converted numeral; both aggregators append the
extracted number, separated by one space, to the kana and romaji town
readings (the Oaza level extracts from the raw source town name, the Gaiku
level from the whitespace-normalized one, as in build.js lines 391/394 and
526/529), while the stored town name keeps no such appended number. -/
theorem getChomeNumber_spec :
    (∀ s : Str, getChomeNumber s ≠ [] →
      ∃ a g t, s = a ++ g ++ t ∧ chomeGroupLang g = true ∧ g ≠ [] ∧
        (t = ['丁'] ∨ t = ['丁', '目']) ∧
        getChomeNumber s = (Nat.repr (kanji2number g)).data) ∧
    (∀ (a g t : Str), chomeGroupLang g = true → g ≠ [] →
      (t = ['丁'] ∨ t = ['丁', '目']) → getChomeNumber (a ++ g ++ t) ≠ []) ∧
    (∀ pc ki ri row rec, buildOazaRecord pc ki ri row = .ok rec →
      rec.townName = removeUnnecessarySpace row.townRaw ∧
      (∀ k, lookupKanaItem (applyRename row.prefName row.cityName)
          (removeUnnecessarySpace row.townRaw) ki = some k →
        getChomeNumber row.townRaw ≠ [] →
        rec.townKana = han2zen (removeStringEnclosedInParentheses k.townKana) ++
          ' ' :: getChomeNumber row.townRaw) ∧
      (∀ r, lookupRomeItem (applyRename row.prefName row.cityName)
          (removeUnnecessarySpace row.townRaw) ri = some r →
        getChomeNumber row.townRaw ≠ [] →
        rec.townRome = removeStringEnclosedInParentheses r.townRome ++
          ' ' :: getChomeNumber row.townRaw)) ∧
    (∀ pc ki ri (cm : CoordsMap) (grow : GaikuRow) rec,
      buildGaikuRecord pc ki ri cm grow = .ok rec →
      rec.townName = removeUnnecessarySpace grow.townRaw ∧
      (∀ k, lookupKanaItem (applyRename grow.prefName grow.cityName)
          (removeUnnecessarySpace grow.townRaw) ki = some k →
        getChomeNumber (removeUnnecessarySpace grow.townRaw) ≠ [] →
        rec.townKana = han2zen (removeStringEnclosedInParentheses k.townKana) ++
          ' ' :: getChomeNumber (removeUnnecessarySpace grow.townRaw)) ∧
      (∀ r, lookupRomeItem (applyRename grow.prefName grow.cityName)
          (removeUnnecessarySpace grow.townRaw) ri = some r →
        getChomeNumber (removeUnnecessarySpace grow.townRaw) ≠ [] →
        rec.townRome = removeStringEnclosedInParentheses r.townRome ++
          ' ' :: getChomeNumber (removeUnnecessarySpace grow.townRaw))) := by
  refine ⟨?_, ?_, ?_, ?_⟩
  · intro s h
    cases hT : chomeTail s.reverse with
    | none => exact absurd (by simp [getChomeNumber, hT]) h
    | some tn =>
      obtain ⟨t0, n⟩ := tn
      cases hG : chomeGroupRev t0 with
      | none => exact absurd (by simp [getChomeNumber, hT, hG]) h
      | some vg =>
        obtain ⟨v, glen⟩ := vg
        have hval : getChomeNumber s = (Nat.repr v).data := by
          simp [getChomeNumber, hT, hG]
        obtain ⟨g, rest, ht0, hlang, hgne, hvv⟩ := chomeGroupRev_some t0 v glen hG
        rcases chomeTail_some s.reverse t0 n hT with hrev | hrev
        · have hs : s = rest.reverse ++ g ++ ['丁', '目'] := by
            have hs0 : s = ('目' :: '丁' :: t0).reverse := by
              rw [← hrev, List.reverse_reverse]
            rw [hs0, ht0]
            simp
          exact ⟨rest.reverse, g, ['丁', '目'], hs, hlang, hgne, Or.inr rfl,
            hvv ▸ hval⟩
        · have hs : s = rest.reverse ++ g ++ ['丁'] := by
            have hs0 : s = ('丁' :: t0).reverse := by
              rw [← hrev, List.reverse_reverse]
            rw [hs0, ht0]
            simp
          exact ⟨rest.reverse, g, ['丁'], hs, hlang, hgne, Or.inl rfl, hvv ▸ hval⟩
  · intro a g t hlang hgne ht
    have hG := chomeGroupLang_to_rev_ne_none g hlang hgne a.reverse
    rcases ht with rfl | rfl
    · have hrev : (a ++ g ++ ['丁']).reverse = '丁' :: (g.reverse ++ a.reverse) := by
        simp
      have hT : chomeTail ((a ++ g ++ ['丁']).reverse) =
          some (g.reverse ++ a.reverse, 1) := by
        rw [hrev]
        exact chomeTail_cho _
      simp only [getChomeNumber, hT]
      cases hGc : chomeGroupRev (g.reverse ++ a.reverse) with
      | none => exact absurd hGc hG
      | some vg =>
        obtain ⟨v, glen⟩ := vg
        simp only
        exact natRepr_data_ne_nil v
    · have hrev : (a ++ g ++ ['丁', '目']).reverse =
          '目' :: '丁' :: (g.reverse ++ a.reverse) := by
        simp
      have hT : chomeTail ((a ++ g ++ ['丁', '目']).reverse) =
          some (g.reverse ++ a.reverse, 2) := by
        rw [hrev]
        exact chomeTail_me _
      simp only [getChomeNumber, hT]
      cases hGc : chomeGroupRev (g.reverse ++ a.reverse) with
      | none => exact absurd hGc hG
      | some vg =>
        obtain ⟨v, glen⟩ := vg
        simp only
        exact natRepr_data_ne_nil v
  · intro pc ki ri row rec h
    simp only [buildOazaRecord] at h
    split at h
    · exact absurd h (by simp)
    · rename_i k0 hk0
      cases h
      refine ⟨rfl, ?_, ?_⟩
      · intro k hk hch
        obtain rfl := Option.some.inj (hk0.symm.trans hk)
        simp [chomeReadingSuffix, hch]
      · intro r hr hch
        simp [hr, chomeReadingSuffix, hch]
  · intro pc ki ri cm grow rec h
    simp only [buildGaikuRecord] at h
    split at h
    · exact absurd h (by simp)
    · split at h
      · exact absurd h (by simp)
      · rename_i k0 hk0
        cases h
        refine ⟨rfl, ?_, ?_⟩
        · intro k hk hch
          obtain rfl := Option.some.inj (hk0.symm.trans hk)
          simp [chomeReadingSuffix, hch]
        · intro r hr hch
          simp [hr, chomeReadingSuffix, hch]

/-- C7 witness: a concrete decomposition witnessing a successful match. -/
theorem getChomeNumber_spec_witness :
    getChomeNumber (str "大通西" ++ str "一" ++ ['丁']) ≠ [] :=
  getChomeNumber_spec.2.1 (str "大通西") (str "一") ['丁'] (by decide) (by decide)
    (Or.inl rfl)
